import Mathlib

/-!
Shallow embedding of the core of `extract-twitter-bookmarks`:
the extraction task (src/src/extraction-task.ts) and the
authentication client (src/unnamed/part_000), together with the
rxjs / immutable.js library semantics the task relies on.
-/

/-- A Record: one extracted item. Identity per the spec is the stable
identifier `id`; `body` stands for all other observed fields. -/
structure Tweet where
  id : Nat
  body : String
deriving DecidableEq

/-- A TweetSet models an immutable.js `OrderedSet<Tweet>`: an insertion-ordered,
duplicate-free list of elements. Duplicate-freeness is by full value equality
(immutable.js `OrderedSet` deduplicates by deep value equality of its
elements, not by any distinguished key). -/
abbrev TweetSet := List Tweet

/-- Adding one element to an OrderedSet: kept only if not already present
(by full value equality); appended at the end otherwise. -/
def TweetSet.add (s : TweetSet) (t : Tweet) : TweetSet :=
  if t ∈ s then s else s ++ [t]

/-- `a.union(b)` of immutable.js OrderedSets: the elements of `b` are visited
in order and each one not already present in the accumulated set is appended. -/
def TweetSet.union (a b : TweetSet) : TweetSet :=
  b.foldl TweetSet.add a

/-- The `maxLimit` task option is a JS number that is either a finite count
or `Number.POSITIVE_INFINITY` (the default, meaning unbounded). -/
inductive MaxLimit where
  | finite (n : Nat)
  | infinite
deriving DecidableEq

/-- `size <= maxLimit` on JS numbers: always true against infinity. -/
def MaxLimit.withinLimit (m : MaxLimit) (size : Nat) : Bool :=
  match m with
  | .finite n => size ≤ n
  | .infinite => true

section SetLemmas

theorem TweetSet.mem_add {s : TweetSet} {t x : Tweet} :
    x ∈ s.add t ↔ x ∈ s ∨ x = t := by
  by_cases h : t ∈ s
  · simp only [TweetSet.add, if_pos h]
    constructor
    · exact Or.inl
    · rintro (hx | rfl)
      · exact hx
      · exact h
  · simp [TweetSet.add, h]

theorem TweetSet.mem_foldl_add {l : List Tweet} {s : TweetSet} {x : Tweet} :
    x ∈ l.foldl TweetSet.add s ↔ x ∈ s ∨ x ∈ l := by
  induction l generalizing s with
  | nil => simp
  | cons a l ih =>
    simp only [List.foldl_cons, ih, TweetSet.mem_add, List.mem_cons]
    tauto

theorem TweetSet.mem_union {a b : TweetSet} {x : Tweet} :
    x ∈ a.union b ↔ x ∈ a ∨ x ∈ b :=
  TweetSet.mem_foldl_add

theorem TweetSet.nodup_add {s : TweetSet} (h : s.Nodup) (t : Tweet) :
    (s.add t).Nodup := by
  by_cases hm : t ∈ s
  · simpa [TweetSet.add, hm] using h
  · simp only [TweetSet.add, if_neg hm]
    refine List.Nodup.append h (List.nodup_singleton t) ?_
    intro a ha hat
    simp only [List.mem_singleton] at hat
    subst hat
    exact hm ha

theorem TweetSet.nodup_foldl_add {l : List Tweet} {s : TweetSet} (h : s.Nodup) :
    (l.foldl TweetSet.add s).Nodup := by
  induction l generalizing s with
  | nil => exact h
  | cons a l ih => exact ih (TweetSet.nodup_add h a)

theorem TweetSet.nodup_union {a b : TweetSet} (h : a.Nodup) :
    (a.union b).Nodup :=
  TweetSet.nodup_foldl_add h

theorem TweetSet.foldl_add_eq_append (l : List Tweet) (s : TweetSet) :
    ∃ rest, l.foldl TweetSet.add s = s ++ rest := by
  induction l generalizing s with
  | nil => exact ⟨[], by simp⟩
  | cons a l ih =>
    rcases ih (s.add a) with ⟨rest, hrest⟩
    by_cases hmem : a ∈ s
    · refine ⟨rest, ?_⟩
      rw [List.foldl_cons, hrest]
      have hadd : s.add a = s := by simp [TweetSet.add, hmem]
      rw [hadd]
    · refine ⟨a :: rest, ?_⟩
      rw [List.foldl_cons, hrest]
      have hadd : s.add a = s ++ [a] := by simp [TweetSet.add, hmem]
      rw [hadd, List.append_assoc]
      rfl

theorem TweetSet.union_eq_append (a b : TweetSet) :
    ∃ rest, a.union b = a ++ rest :=
  TweetSet.foldl_add_eq_append b a

end SetLemmas

/-! Progress events of the extraction task (src/src/extraction-task.ts). -/

/-- Event name constant `ExtractionTask.EXPORT_TWEETS`. -/
def EXPORT_TWEETS : String := "extractor:export:tweets"

/-- Event name constant `ExtractionTask.BOOKMARKED_TWEETS_EXTRACTION`. -/
def BOOKMARKED_TWEETS_EXTRACTION : String := "extractor:tweets:extraction"

/-- Event name constant `ExtractionTask.BOOKMARKED_TWEETS_EXTRACT_COMPLETE`. -/
def BOOKMARKED_TWEETS_EXTRACT_COMPLETE : String := "extractor:tweets:complete"

/-- The task's own progress-event name list `ExtractionTask.PROGRESS_EVENTS`. -/
def PROGRESS_EVENTS : List String :=
  [BOOKMARKED_TWEETS_EXTRACTION,
   BOOKMARKED_TWEETS_EXTRACT_COMPLETE,
   EXPORT_TWEETS]

/-- An event observable on the Progress Channel: a named progress event with
an optional completion pair `(complete, total)`, or a free-text message. -/
inductive TaskEvent where
  | progress (name : String) (completeTotal : Option (Nat × Nat))
  | message (text : String)
deriving DecidableEq

/-- rxjs `reduce(f)` without a seed: the source is consumed to completion,
folding every emission into an accumulator seeded with the first emission,
and the single final accumulator is emitted when the source completes
(nothing is emitted for an empty source). -/
def rxReduce (f : α → α → α) : List α → List α
  | [] => []
  | x :: xs => [xs.foldl f x]

/-- rxjs `takeWhile(p)` (non-inclusive): re-emits incoming values while `p`
holds and completes, dropping the offending value, the first time it fails. -/
def rxTakeWhile (p : α → Bool) (l : List α) : List α :=
  l.takeWhile p

/-- The emissions of the `tweets$` observable built in `ExtractionTask.run`:
the batches produced by the extractor (modelled from the spec: the extractor
emits one TweetSet per page pull and completes on exhaustion, and is not
itself limit-aware) piped through `reduce(union)` and then
`takeWhile(size <= maxLimit)`. -/
def pipelineEmissions (batches : List TweetSet) (m : MaxLimit) : List TweetSet :=
  rxTakeWhile (fun s => m.withinLimit s.length) (rxReduce TweetSet.union batches)

/-- The progress events `ExtractionTask.onExtractTweets` emits for one
incoming accumulated set: nothing when `maxLimit` is infinite, otherwise one
extraction event carrying `(collected, maxLimit)`. -/
def onExtractTweetsEvents (m : MaxLimit) (tweets : TweetSet) : List TaskEvent :=
  match m with
  | .infinite => []
  | .finite l => [.progress BOOKMARKED_TWEETS_EXTRACTION (some (tweets.length, l))]

/-- The task's `tweets` field after all `next` deliveries: each delivery
overwrites the field, so it holds the last emission, or the initial empty
`OrderedSet()` when nothing was emitted. -/
def finalTweets (emissions : List TweetSet) : TweetSet :=
  emissions.getLastD []

/-- `ExtractionTask.tweetMapsToTweets`: `toArray().slice(0, maxLimit)`
(a slice to infinity keeps the whole array) followed by a per-element
`toObject()` conversion, which is the identity on the modelled fields. -/
def tweetMapsToTweets (tweets : TweetSet) (m : MaxLimit) : List Tweet :=
  match m with
  | .finite l => tweets.take l
  | .infinite => tweets

/-- The ordered array `stop()` hands to the exporters, for a run over the
given batches. -/
def exportedArray (batches : List TweetSet) (m : MaxLimit) : List Tweet :=
  tweetMapsToTweets (finalTweets (pipelineEmissions batches m)) m

/-- One observable step of `ExtractionTask.stop()`: an `unsubscribe()` call
on one of the two Subscription fields (`eventForwarder`, `tweetStream`),
emitting an event, writing to the file sink or stdout sink, or closing the
bookmarks page manager. An unsubscribe call only detaches a live stream if
the field actually holds that stream's handle — which Subscription each
field holds is tracked separately, in `TaskSubscriptions` below. -/
inductive StopStep where
  | unsubscribeForwarder
  | unsubscribeTweetStream
  | emit (e : TaskEvent)
  | fileWrite (tweets : List Tweet)
  | stdOutWrite (tweets : List Tweet)
  | closePageManager
deriving DecidableEq

/-- The steps of `ExtractionTask.exportTweets`: with a configured file name
the JSON sink is written (modelled from the spec: the file sink is an
external collaborator that either succeeds or fails, `sinkOk`); a sink
failure is caught and reported as a message event, success (or no configured
file name) is followed by the export progress event. -/
def exportTweetsSteps (fileName : Option String) (sinkOk : Bool)
    (tweets : List Tweet) : List StopStep :=
  match fileName with
  | none => [.emit (.progress EXPORT_TWEETS none)]
  | some _ =>
    if sinkOk then
      [.fileWrite tweets, .emit (.progress EXPORT_TWEETS none)]
    else
      [.fileWrite tweets, .emit (.message "Failed to export tweets to file.")]

/-- The steps of `ExtractionTask.stop()`, in source order: unsubscribe the
`eventForwarder` field (`stopForwardingEvents`), unsubscribe the
`tweetStream` field (`stopStreamingTweets`), emit the extract-complete
event, run `exportTweets` on the capped array, print the capped array to
stdout, close the page manager. -/
def stopSteps (tweets : TweetSet) (m : MaxLimit) (fileName : Option String)
    (sinkOk : Bool) : List StopStep :=
  [.unsubscribeForwarder,
   .unsubscribeTweetStream,
   .emit (.progress BOOKMARKED_TWEETS_EXTRACT_COMPLETE none)]
  ++ exportTweetsSteps fileName sinkOk (tweetMapsToTweets tweets m)
  ++ [.stdOutWrite (tweetMapsToTweets tweets m), .closePageManager]

/-- The event emitted by a stop step, if any. -/
def stepEvent : StopStep → Option TaskEvent
  | .emit e => some e
  | _ => none

/-- All events the task emits on its Progress Channel during a run over the
given batches: the per-emission events of `onExtractTweets`, followed by the
events of `stop()` (run by `onComplete`). -/
def runEvents (batches : List TweetSet) (m : MaxLimit) (fileName : Option String)
    (sinkOk : Bool) : List TaskEvent :=
  ((pipelineEmissions batches m).map (onExtractTweetsEvents m)).flatten
  ++ (stopSteps (finalTweets (pipelineEmissions batches m)) m fileName sinkOk).filterMap stepEvent

/-- `ExtractionTask.numEvents`: the page-manager event count (modelled from
the spec: `BookmarksPageManager.PROGRESS_EVENTS` lives outside the shown
sources, only its length enters the formula) plus the task-specific count
`PROGRESS_EVENTS.length - 1`, plus `maxLimit` when it is not infinity. -/
def numEvents (pageManagerEvents : Nat) (m : MaxLimit) : Nat :=
  let taskSpecificEvents :=
    PROGRESS_EVENTS.length - 1 +
      (match m with
       | .finite l => l
       | .infinite => 0)
  pageManagerEvents + taskSpecificEvents

/-! Authentication state machine (src/unnamed/part_000, class `Client`). -/

/-- The `State` enum of the Client. -/
inductive State where
  | Inactive
  | LoggedOut
  | Needs2FACode
  | NeedsConfirmationCode
  | LoggedIn
deriving DecidableEq

/-- The events a Client can emit (`ClientEvents`). Extra rest arguments are
not modelled; only the leading message is. -/
inductive ClientEvent where
  | actionRequired (message : String)
  | internalError (message : String)
  | userError (message : String)
  | success
deriving DecidableEq

/-- The page location the browser ends up at after a page-manager action,
classified by the `PATHNAMES` entries the Client tests with
`currentUrlHasPath` (modelled from the spec: the page manager is an external
collaborator; only the location class it reports back matters here). -/
inductive PageLocation where
  | bookmarks
  | challengeCode
  | twoFaCode
  | loggedOutPage
  | other
deriving DecidableEq

/-- A call the Client makes into its page manager (the browser session). -/
inductive PMCall where
  | submitLogIn
  | submitConfirmationCode (code : String)
  | submitTwoFactorCode (code : String)
  | refreshWithBookmarksRedirect
deriving DecidableEq

/-- The mutable fields of a Client instance. -/
structure ClientState where
  pageManagerReady : Bool
  state : State
  lastAuthAttemptFailed : Bool
  lastCodeAttemptFailed : Bool
deriving DecidableEq

/-- A freshly constructed Client: not ready, `state = LoggedOut`, no failed
attempts recorded. -/
def ClientState.initial : ClientState :=
  ⟨false, .LoggedOut, false, false⟩

/-- The outcome of one Client method call: the resulting field values, the
events emitted (in order), and the calls made into the page manager
(in order). -/
structure MethodResult where
  final : ClientState
  events : List ClientEvent
  pmCalls : List PMCall
deriving DecidableEq

/-- The joined error text `Client.assertPageManagerReady` reports. -/
def pageManagerNotReadyMessage : String :=
  "Page manager had not been initialized correctly.The page manager is necessary to sign in on your behalf to Twitter and begin the process of fetching bookmarks."

/-- `Client.assertPageManagerReady`: emits `internalError` when the page
manager is not ready. It only emits — it does not abort the caller. -/
def assertPageManagerReadyEvents (c : ClientState) : List ClientEvent :=
  if c.pageManagerReady then []
  else [.internalError pageManagerNotReadyMessage]

/-- `Client.handleLoginIssue`, reached when the post-login location is not
the bookmarks page: a challenge-code page asks for a confirmation code, a
2FA page asks for a 2FA code, anything else marks the auth attempt failed,
refreshes toward the bookmarks page and reports incorrect credentials. -/
def handleLoginIssue (c : ClientState) (locAfter : PageLocation) : MethodResult :=
  if locAfter = .challengeCode then
    ⟨{ c with state := .NeedsConfirmationCode },
     [.actionRequired "Your confirmation code is necessary to proceed."], []⟩
  else if locAfter = .twoFaCode then
    ⟨{ c with state := .Needs2FACode },
     [.actionRequired "Your 2FA code is necessary to proceed. Please check your device."], []⟩
  else
    ⟨{ c with lastAuthAttemptFailed := true },
     [.userError "Your credentials were incorrect."],
     [.refreshWithBookmarksRedirect]⟩

/-- `Client.logIn`: guarded by readiness (emit `internalError` and return);
otherwise clear the failed-auth flag, submit the credentials, and branch on
the resulting location (`locAfter`): bookmarks means `LoggedIn` plus
`success`, anything else goes to `handleLoginIssue`. The credentials value
itself does not influence the Client; only the resulting location does. -/
def logIn (c : ClientState) (locAfter : PageLocation) : MethodResult :=
  if !c.pageManagerReady then
    ⟨c, [.internalError "The browser has not been initialized yet."], []⟩
  else
    let c1 := { c with lastAuthAttemptFailed := false }
    if locAfter = .bookmarks then
      ⟨{ c1 with state := .LoggedIn }, [.success], [.submitLogIn]⟩
    else
      let r := handleLoginIssue c1 locAfter
      ⟨r.final, r.events, .submitLogIn :: r.pmCalls⟩

/-- `Client.enterConfirmationCode`: runs `assertPageManagerReady` (which
only emits), clears the failed-code flag, submits the code, and if the
location still shows the challenge-code page marks the code attempt failed
and reports it. -/
def enterConfirmationCode (c : ClientState) (code : String) (locAfter : PageLocation) :
    MethodResult :=
  let assertEvents := assertPageManagerReadyEvents c
  let c1 := { c with lastCodeAttemptFailed := false }
  if locAfter = .challengeCode then
    ⟨{ c1 with lastCodeAttemptFailed := true },
     assertEvents ++ [.userError "Your challenge code was incorrect."],
     [.submitConfirmationCode code]⟩
  else
    ⟨c1, assertEvents, [.submitConfirmationCode code]⟩

/-- `Client.enterTwoFactorCode`: same shape as `enterConfirmationCode`, but
against the 2FA page. -/
def enterTwoFactorCode (c : ClientState) (code : String) (locAfter : PageLocation) :
    MethodResult :=
  let assertEvents := assertPageManagerReadyEvents c
  let c1 := { c with lastCodeAttemptFailed := false }
  if locAfter = .twoFaCode then
    ⟨{ c1 with lastCodeAttemptFailed := true },
     assertEvents ++ [.userError "Your 2FA code was incorrect."],
     [.submitTwoFactorCode code]⟩
  else
    ⟨c1, assertEvents, [.submitTwoFactorCode code]⟩

/-! Claim theorems. -/

/-- Absorption: merging a batch whose records are all already present leaves
the set unchanged. -/
theorem TweetSet.union_absorb {s : TweetSet} {l : List Tweet}
    (h : ∀ x ∈ l, x ∈ s) : s.union l = s := by
  induction l with
  | nil => rfl
  | cons a l ih =>
    have ha : s.add a = s := by simp [TweetSet.add, h a (by simp)]
    show (a :: l).foldl TweetSet.add s = s
    rw [List.foldl_cons, ha]
    exact ih fun x hx => h x (List.mem_cons_of_mem a hx)

/-- C5 counterexample: two batches both carrying identifier 1 but with
different other field values. `union(union(∅,B1),B2)` keeps both records, so
identifier 1 occurs twice, not once: OrderedSet union deduplicates by full
value equality, not by identifier. -/
theorem union_not_keyed_by_id :
    ((TweetSet.union (TweetSet.union [] [⟨1, "a"⟩]) [⟨1, "b"⟩]).countP
      (fun t => t.id == 1)) = 2 := by
  decide

/-- C5 (amended): union deduplicates by whole-record value. If the batches
overlap in a record `r` that is equal in all fields, then
`union(union(∅,B1),B2)` contains `r` exactly once; the deduplicated first
batch is kept as an unchanged initial segment (first-seen order and
position); union is commutative on the set of record values and idempotent
(re-merging `B2` changes nothing); and the size equals the number of
distinct record values across both batches. -/
theorem union_dedups_by_value (r : Tweet) (b1 b2 : List Tweet)
    (h1 : r ∈ b1) (h2 : r ∈ b2) :
    (TweetSet.union (TweetSet.union [] b1) b2).count r = 1 ∧
    (TweetSet.union (TweetSet.union [] b2) b1).count r = 1 ∧
    (TweetSet.union (TweetSet.union [] b1) b2).take (TweetSet.union [] b1).length
      = TweetSet.union [] b1 ∧
    (TweetSet.union (TweetSet.union [] b1) b2).toFinset
      = (TweetSet.union (TweetSet.union [] b2) b1).toFinset ∧
    (TweetSet.union (TweetSet.union [] b1) b2).length = (b1 ++ b2).toFinset.card ∧
    TweetSet.union (TweetSet.union (TweetSet.union [] b1) b2) b2
      = TweetSet.union (TweetSet.union [] b1) b2 := by
  have hn1 : (TweetSet.union [] b1).Nodup := TweetSet.nodup_union List.nodup_nil
  have hn : (TweetSet.union (TweetSet.union [] b1) b2).Nodup :=
    TweetSet.nodup_union hn1
  have hn2 : (TweetSet.union (TweetSet.union [] b2) b1).Nodup :=
    TweetSet.nodup_union (TweetSet.nodup_union List.nodup_nil)
  refine ⟨?_, ?_, ?_, ?_, ?_, ?_⟩
  · exact List.count_eq_one_of_mem hn
      (TweetSet.mem_union.mpr (Or.inl (TweetSet.mem_union.mpr (Or.inr h1))))
  · exact List.count_eq_one_of_mem hn2
      (TweetSet.mem_union.mpr (Or.inl (TweetSet.mem_union.mpr (Or.inr h2))))
  · rcases TweetSet.union_eq_append (TweetSet.union [] b1) b2 with ⟨rest, hrest⟩
    rw [hrest, List.take_left]
  · ext x
    simp only [List.mem_toFinset, TweetSet.mem_union]
    tauto
  · rw [← List.toFinset_card_of_nodup hn]
    congr 1
    ext x
    simp only [List.mem_toFinset, TweetSet.mem_union, List.mem_append]
    tauto
  · exact TweetSet.union_absorb fun x hx => TweetSet.mem_union.mpr (Or.inr hx)

/-- Witness for the amended C5 theorem at a concrete overlapping record. -/
theorem union_dedups_by_value_witness :
    (⟨1, "x"⟩ : Tweet) ∈ [(⟨1, "x"⟩ : Tweet), ⟨2, "y"⟩] ∧
    (⟨1, "x"⟩ : Tweet) ∈ [(⟨3, "z"⟩ : Tweet), ⟨1, "x"⟩] ∧
    ((TweetSet.union (TweetSet.union [] [⟨1, "x"⟩, ⟨2, "y"⟩]) [⟨3, "z"⟩, ⟨1, "x"⟩]).count (⟨1, "x"⟩ : Tweet) = 1 ∧
     (TweetSet.union (TweetSet.union [] [⟨3, "z"⟩, ⟨1, "x"⟩]) [⟨1, "x"⟩, ⟨2, "y"⟩]).count (⟨1, "x"⟩ : Tweet) = 1 ∧
     (TweetSet.union (TweetSet.union [] [⟨1, "x"⟩, ⟨2, "y"⟩]) [⟨3, "z"⟩, ⟨1, "x"⟩]).take
        (TweetSet.union [] [(⟨1, "x"⟩ : Tweet), ⟨2, "y"⟩]).length
      = TweetSet.union [] [⟨1, "x"⟩, ⟨2, "y"⟩] ∧
     (TweetSet.union (TweetSet.union [] [⟨1, "x"⟩, ⟨2, "y"⟩]) [⟨3, "z"⟩, ⟨1, "x"⟩]).toFinset
      = (TweetSet.union (TweetSet.union [] [⟨3, "z"⟩, ⟨1, "x"⟩]) [⟨1, "x"⟩, ⟨2, "y"⟩]).toFinset ∧
     (TweetSet.union (TweetSet.union [] [⟨1, "x"⟩, ⟨2, "y"⟩]) [⟨3, "z"⟩, ⟨1, "x"⟩]).length
      = ([(⟨1, "x"⟩ : Tweet), ⟨2, "y"⟩] ++ ([⟨3, "z"⟩, ⟨1, "x"⟩] : List Tweet)).toFinset.card ∧
     TweetSet.union (TweetSet.union (TweetSet.union [] [⟨1, "x"⟩, ⟨2, "y"⟩]) [⟨3, "z"⟩, ⟨1, "x"⟩]) [⟨3, "z"⟩, ⟨1, "x"⟩]
      = TweetSet.union (TweetSet.union [] [⟨1, "x"⟩, ⟨2, "y"⟩]) [⟨3, "z"⟩, ⟨1, "x"⟩]) :=
  ⟨by decide, by decide,
   union_dedups_by_value ⟨1, "x"⟩ [⟨1, "x"⟩, ⟨2, "y"⟩] [⟨3, "z"⟩, ⟨1, "x"⟩]
     (by decide) (by decide)⟩

/-- C1: evaluation of the pipeline at the limit scenario `L = 5`, batches of
distinct identifiers arriving as sizes `[3, 3, 3]`. Because `run()` pipes
the batches through rxjs `reduce` (which only emits once, after the source
is exhausted) rather than `scan`, the downstream `takeWhile` can never stop
the pulling early: all three batches are folded into one aggregate of size
9, that single over-limit emission is dropped by `takeWhile`, the task's
`tweets` field stays at the initial empty set, and the exported array is
empty instead of holding exactly 5 records. -/
theorem reduce_defeats_bounded_stop :
    rxReduce TweetSet.union
        ([[⟨1, ""⟩, ⟨2, ""⟩, ⟨3, ""⟩], [⟨4, ""⟩, ⟨5, ""⟩, ⟨6, ""⟩],
          [⟨7, ""⟩, ⟨8, ""⟩, ⟨9, ""⟩]] : List TweetSet)
      = [[⟨1, ""⟩, ⟨2, ""⟩, ⟨3, ""⟩, ⟨4, ""⟩, ⟨5, ""⟩, ⟨6, ""⟩, ⟨7, ""⟩,
          ⟨8, ""⟩, ⟨9, ""⟩]] ∧
    pipelineEmissions
        ([[⟨1, ""⟩, ⟨2, ""⟩, ⟨3, ""⟩], [⟨4, ""⟩, ⟨5, ""⟩, ⟨6, ""⟩],
          [⟨7, ""⟩, ⟨8, ""⟩, ⟨9, ""⟩]] : List TweetSet) (.finite 5) = [] ∧
    exportedArray
        ([[⟨1, ""⟩, ⟨2, ""⟩, ⟨3, ""⟩], [⟨4, ""⟩, ⟨5, ""⟩, ⟨6, ""⟩],
          [⟨7, ""⟩, ⟨8, ""⟩, ⟨9, ""⟩]] : List TweetSet) (.finite 5) = [] := by
  decide

/-- C2: evaluation of the pipeline at two singleton batches in unbounded
mode. rxjs `reduce` makes the pipeline deliver a single `next` at source
completion, so the accumulated set after the first batch (`[⟨1,"a"⟩]`) is
never surfaced to the caller: the observer sees one emission, not one per
batch. -/
theorem reduce_surfaces_single_emission :
    pipelineEmissions ([[⟨1, "a"⟩], [⟨2, "b"⟩]] : List TweetSet) .infinite
      = [[⟨1, "a"⟩, ⟨2, "b"⟩]] ∧
    (pipelineEmissions ([[⟨1, "a"⟩], [⟨2, "b"⟩]] : List TweetSet) .infinite).length
      = 1 ∧
    ([⟨1, "a"⟩] : TweetSet) ∉
      pipelineEmissions ([[⟨1, "a"⟩], [⟨2, "b"⟩]] : List TweetSet) .infinite := by
  decide

/-- Flattening a map that sends everything to the empty list yields the
empty list. -/
theorem flatten_map_nil (l : List α) :
    (l.map fun _ => ([] : List β)).flatten = [] := by
  induction l <;> simp_all

/-- Does a Progress Channel event carry an extraction-progress completion
pair? -/
def isExtractionRatioEvent : TaskEvent → Bool
  | .progress n _ => n == BOOKMARKED_TWEETS_EXTRACTION
  | .message _ => false

/-- Is a Progress Channel event the extraction-complete event? -/
def isExtractCompleteEvent : TaskEvent → Bool
  | .progress n r => n == BOOKMARKED_TWEETS_EXTRACT_COMPLETE && r == none
  | .message _ => false

/-- C7: in unbounded mode (`maxLimit = Infinity`) a full run emits no
extraction-progress event at all — `onExtractTweets` returns before emitting
whenever the limit is infinite — and the extraction-complete event is
emitted exactly once, by `stop()`. This holds for every batch sequence,
file-name option and file-sink outcome. -/
theorem unbounded_no_ratio_events (batches : List TweetSet)
    (fileName : Option String) (sinkOk : Bool) :
    (runEvents batches .infinite fileName sinkOk).filter isExtractionRatioEvent
      = [] ∧
    (runEvents batches .infinite fileName sinkOk).filter isExtractCompleteEvent
      = [.progress BOOKMARKED_TWEETS_EXTRACT_COMPLETE none] := by
  have hmap : ∀ l : List TweetSet,
      (l.map (onExtractTweetsEvents .infinite)).flatten = [] := by
    intro l
    induction l <;> simp_all [onExtractTweetsEvents]
  cases fileName with
  | none =>
    refine ⟨?_, ?_⟩ <;>
      simp [runEvents, hmap, stopSteps, exportTweetsSteps,
        stepEvent, isExtractionRatioEvent, isExtractCompleteEvent,
        BOOKMARKED_TWEETS_EXTRACTION, BOOKMARKED_TWEETS_EXTRACT_COMPLETE,
        EXPORT_TWEETS]
  | some f =>
    cases sinkOk <;>
      (refine ⟨?_, ?_⟩ <;>
        simp [runEvents, hmap, stopSteps, exportTweetsSteps,
          stepEvent, isExtractionRatioEvent, isExtractCompleteEvent,
          BOOKMARKED_TWEETS_EXTRACTION, BOOKMARKED_TWEETS_EXTRACT_COMPLETE,
          EXPORT_TWEETS])

/-- The stop step that emits the extraction-complete event. -/
def completeEmit : StopStep :=
  .emit (.progress BOOKMARKED_TWEETS_EXTRACT_COMPLETE none)

/-- The Progress Channel events emitted strictly after the
extraction-complete event within a list of stop steps. -/
def eventsAfterComplete (l : List StopStep) : List TaskEvent :=
  ((l.dropWhile fun s => !(s == completeEmit)).drop 1).filterMap stepEvent

/-- C3 counterexample: on a concrete `stop()` run (empty accumulated set,
limit 5, no file name), a progress event — the export event — is emitted on
the Progress Channel after the extraction-complete event, so it is not true
that no progress or message event of any kind follows the completion
event. -/
theorem event_emitted_after_complete :
    eventsAfterComplete (stopSteps [] (.finite 5) none true)
      = [.progress EXPORT_TWEETS none] ∧
    eventsAfterComplete (stopSteps [] (.finite 5) none true) ≠ [] := by
  decide

/-- The two event streams an ExtractionTask subscribes to: the forwarding
of page-manager progress/message events set up in the constructor, and the
`tweets$` extraction stream subscribed in `run()`. -/
inductive SubscriptionTarget where
  | forwarding
  | extraction
deriving DecidableEq

/-- An rxjs Subscription as held in a field: the bare `new Subscription()`
(unsubscribing it detaches no stream), or the handle returned by
subscribing to one of the task's streams. -/
inductive Subscription where
  | empty
  | linked (t : SubscriptionTarget)
deriving DecidableEq

/-- The subscription state of an ExtractionTask: which streams are live
(still delivering events to the task), and what the two Subscription fields
hold. -/
structure TaskSubscriptions where
  live : List SubscriptionTarget
  eventForwarder : Subscription
  tweetStream : Subscription
deriving DecidableEq

/-- `unsubscribe()` on a Subscription: the bare empty Subscription detaches
nothing; a linked handle removes its stream from the live set. -/
def unsubscribeHandle (s : Subscription) (live : List SubscriptionTarget) :
    List SubscriptionTarget :=
  match s with
  | .empty => live
  | .linked t => live.filter fun x => !(x == t)

/-- The task right after its constructor: both fields hold their field
initializer `new Subscription()`; the constructor then calls
`createEventObservable(this.bookmarksPageManager).subscribe(...)`, which
starts the forwarding stream, but the Subscription this call returns is
discarded — it is never assigned to the `eventForwarder` field. -/
def constructedSubscriptions : TaskSubscriptions :=
  { live := [.forwarding], eventForwarder := .empty, tweetStream := .empty }

/-- The task after `run()`: `tweets$.subscribe(tweetsObserver)` starts the
extraction stream, and this handle is assigned to the `tweetStream` field;
`eventForwarder` is untouched. -/
def runSubscriptions : TaskSubscriptions :=
  { live := [.extraction, .forwarding],
    eventForwarder := constructedSubscriptions.eventForwarder,
    tweetStream := .linked .extraction }

/-- The streams still live after the two unsubscribe calls at the head of
`stop()` — `stopForwardingEvents()` (unsubscribes `eventForwarder`) followed
by `stopStreamingTweets()` (unsubscribes `tweetStream`) — both of which run
before the completion event is emitted. -/
def liveAfterTeardown (ts : TaskSubscriptions) : List SubscriptionTarget :=
  unsubscribeHandle ts.tweetStream (unsubscribeHandle ts.eventForwarder ts.live)

/-- C3 (amended): during `stop()`, `stopForwardingEvents()` runs first,
`stopStreamingTweets()` second, and both before the extraction-complete
event is emitted; the extraction subscription is thereby effectively torn
down, so among the task's own events only the export-phase ones — the
export progress event or the export-failure message — can follow the
completion event. The event-forwarding stream, however, is NOT torn down:
the constructor discards the Subscription returned by its `subscribe(...)`
call, so `eventForwarder` still holds the empty `new Subscription()` and
`stopForwardingEvents()` detaches nothing — the forwarding stream is still
live after both teardown calls, and forwarded session-controller events
remain possible after the completion event. -/
theorem stop_teardown_partial (tweets : TweetSet) (m : MaxLimit)
    (fileName : Option String) (sinkOk : Bool) :
    (∃ rest,
      stopSteps tweets m fileName sinkOk =
        .unsubscribeForwarder :: .unsubscribeTweetStream :: completeEmit :: rest ∧
      ∀ e ∈ rest.filterMap stepEvent,
        e = .progress EXPORT_TWEETS none ∨
        e = .message "Failed to export tweets to file.") ∧
    runSubscriptions.eventForwarder = .empty ∧
    SubscriptionTarget.extraction ∉ liveAfterTeardown runSubscriptions ∧
    SubscriptionTarget.forwarding ∈ liveAfterTeardown runSubscriptions := by
  refine ⟨⟨exportTweetsSteps fileName sinkOk (tweetMapsToTweets tweets m) ++
      [.stdOutWrite (tweetMapsToTweets tweets m), .closePageManager], ?_, ?_⟩,
    rfl, by decide, by decide⟩
  · simp [stopSteps, completeEmit]
  · intro e he
    cases fileName with
    | none => simp_all [exportTweetsSteps, stepEvent]
    | some f =>
      cases sinkOk <;> simp_all [exportTweetsSteps, stepEvent]

/-- C8: when a file name is configured and the file sink fails, `stop()`
still runs to the end: the failure is absorbed inside `exportTweets` (the
whole trace below is produced, no exception escapes) and is reported as a
message event, after which the run proceeds to the console export and then
closes the page manager. -/
theorem export_failure_nonfatal (tweets : TweetSet) (m : MaxLimit) (f : String) :
    stopSteps tweets m (some f) false =
      [.unsubscribeForwarder, .unsubscribeTweetStream, completeEmit,
       .fileWrite (tweetMapsToTweets tweets m),
       .emit (.message "Failed to export tweets to file."),
       .stdOutWrite (tweetMapsToTweets tweets m), .closePageManager] := by
  simp [stopSteps, exportTweetsSteps, completeEmit]

/-- C9: the expected total event count. The page-manager term enters
unchanged, the task's own fixed contribution is the two always-emitted task
events (extract-complete and export: `PROGRESS_EVENTS.length - 1`), and the
limit contributes exactly one event per unit when finite and nothing when
infinite. -/
theorem numEvents_formula (p l : Nat) :
    numEvents p (.finite l) = p + 2 + l ∧
    numEvents p .infinite = p + 2 ∧
    numEvents p (.finite l) = numEvents p .infinite + l ∧
    PROGRESS_EVENTS.length - 1 = 2 := by
  refine ⟨?_, ?_, ?_, ?_⟩ <;>
    simp [numEvents, PROGRESS_EVENTS] <;> omega

/-- C4: on an uninitialized Client, `assertPageManagerReady` only emits the
`internalError` event and does not abort the method. Concretely, an
uninitialized Client asked for a 2FA code still submits the code to the page
manager and still clears the last-code-attempt flag (here visibly changing
it from `true` to `false`), and an uninitialized confirmation-code call
whose location check fails emits a `userError` on top of the
`internalError` — contradicting the claim that the call is rejected with one
`internalError`, no submission and no state change. -/
theorem uninitialized_code_entry_still_submits :
    (enterTwoFactorCode ⟨false, .LoggedOut, false, true⟩ "123456" .other).pmCalls
      = [.submitTwoFactorCode "123456"] ∧
    (enterTwoFactorCode ⟨false, .LoggedOut, false, true⟩ "123456" .other).final.lastCodeAttemptFailed
      = false ∧
    (enterTwoFactorCode ⟨false, .LoggedOut, false, true⟩ "123456" .other).events
      = [.internalError pageManagerNotReadyMessage] ∧
    (enterConfirmationCode ⟨false, .LoggedOut, false, false⟩ "000000" .challengeCode).events
      = [.internalError pageManagerNotReadyMessage,
         .userError "Your challenge code was incorrect."] ∧
    (enterConfirmationCode ⟨false, .LoggedOut, false, false⟩ "000000" .challengeCode).pmCalls
      = [.submitConfirmationCode "000000"] :=
  ⟨rfl, rfl, rfl, rfl, rfl⟩

/-- C10: on an initialized Client, `enterTwoFactorCode` and
`enterConfirmationCode` leave the `state` field untouched for every code and
every resulting page location — in particular they can never move the Client
to `LoggedIn` — and also leave `pageManagerReady` and
`lastAuthAttemptFailed` untouched; `lastCodeAttemptFailed` is the only field
they may modify. -/
theorem code_entry_never_changes_state (c : ClientState) (code : String)
    (loc : PageLocation) (_h : c.pageManagerReady = true) :
    (enterTwoFactorCode c code loc).final.state = c.state ∧
    (enterConfirmationCode c code loc).final.state = c.state ∧
    (enterTwoFactorCode c code loc).final.pageManagerReady = c.pageManagerReady ∧
    (enterConfirmationCode c code loc).final.pageManagerReady = c.pageManagerReady ∧
    (enterTwoFactorCode c code loc).final.lastAuthAttemptFailed = c.lastAuthAttemptFailed ∧
    (enterConfirmationCode c code loc).final.lastAuthAttemptFailed = c.lastAuthAttemptFailed := by
  refine ⟨?_, ?_, ?_, ?_, ?_, ?_⟩ <;>
    simp only [enterTwoFactorCode, enterConfirmationCode] <;>
    split <;> rfl

/-- Witness for C10 on an initialized Client awaiting a 2FA code whose code
entry is accepted (the location advances). -/
theorem code_entry_never_changes_state_witness :
    (⟨true, .Needs2FACode, false, false⟩ : ClientState).pageManagerReady = true ∧
    ((enterTwoFactorCode ⟨true, .Needs2FACode, false, false⟩ "42" .other).final.state
        = (⟨true, .Needs2FACode, false, false⟩ : ClientState).state ∧
     (enterConfirmationCode ⟨true, .Needs2FACode, false, false⟩ "42" .other).final.state
        = (⟨true, .Needs2FACode, false, false⟩ : ClientState).state ∧
     (enterTwoFactorCode ⟨true, .Needs2FACode, false, false⟩ "42" .other).final.pageManagerReady
        = (⟨true, .Needs2FACode, false, false⟩ : ClientState).pageManagerReady ∧
     (enterConfirmationCode ⟨true, .Needs2FACode, false, false⟩ "42" .other).final.pageManagerReady
        = (⟨true, .Needs2FACode, false, false⟩ : ClientState).pageManagerReady ∧
     (enterTwoFactorCode ⟨true, .Needs2FACode, false, false⟩ "42" .other).final.lastAuthAttemptFailed
        = (⟨true, .Needs2FACode, false, false⟩ : ClientState).lastAuthAttemptFailed ∧
     (enterConfirmationCode ⟨true, .Needs2FACode, false, false⟩ "42" .other).final.lastAuthAttemptFailed
        = (⟨true, .Needs2FACode, false, false⟩ : ClientState).lastAuthAttemptFailed) :=
  ⟨by decide,
   code_entry_never_changes_state ⟨true, .Needs2FACode, false, false⟩ "42" .other
     (by decide)⟩

/-- C6: on a ready Client in state `LoggedOut`, a `logIn` that lands on the
bookmarks page yields `LoggedIn` with exactly one `success` event and no
other event; a `logIn` that lands on none of the bookmarks, challenge-code
or 2FA pages leaves the state at `LoggedOut`, emits exactly one `userError`
event and no other event, and marks the last auth attempt failed. -/
theorem logIn_state_transitions (c : ClientState) (loc : PageLocation)
    (h : c.pageManagerReady = true) (hs : c.state = .LoggedOut)
    (hnb : loc ≠ .bookmarks) (hnc : loc ≠ .challengeCode)
    (hn2 : loc ≠ .twoFaCode) :
    ((logIn c .bookmarks).final.state = .LoggedIn ∧
     (logIn c .bookmarks).events = [.success]) ∧
    ((logIn c loc).final.state = .LoggedOut ∧
     (logIn c loc).events = [.userError "Your credentials were incorrect."] ∧
     (logIn c loc).final.lastAuthAttemptFailed = true) := by
  constructor
  · constructor <;> simp [logIn, h]
  · refine ⟨?_, ?_, ?_⟩ <;>
      simp [logIn, handleLoginIssue, h, hs, hnb, hnc, hn2]

/-- Witness for C6 at a concrete ready, logged-out Client, with the failed
login landing on the logged-out page. -/
theorem logIn_state_transitions_witness :
    (⟨true, .LoggedOut, false, false⟩ : ClientState).pageManagerReady = true ∧
    (⟨true, .LoggedOut, false, false⟩ : ClientState).state = .LoggedOut ∧
    (((logIn ⟨true, .LoggedOut, false, false⟩ .bookmarks).final.state = .LoggedIn ∧
      (logIn ⟨true, .LoggedOut, false, false⟩ .bookmarks).events = [.success]) ∧
     ((logIn ⟨true, .LoggedOut, false, false⟩ .loggedOutPage).final.state = .LoggedOut ∧
      (logIn ⟨true, .LoggedOut, false, false⟩ .loggedOutPage).events
        = [.userError "Your credentials were incorrect."] ∧
      (logIn ⟨true, .LoggedOut, false, false⟩ .loggedOutPage).final.lastAuthAttemptFailed
        = true)) :=
  ⟨by decide, by decide,
   logIn_state_transitions ⟨true, .LoggedOut, false, false⟩ .loggedOutPage
     (by decide) (by decide) (by decide) (by decide) (by decide)⟩
